import Mathlib

/-!
Verification development for the sez-vision-backend service: a shallow
embedding, in Lean 4, of the authentication/authorization subsystem
(pkg/utils/auth.go, internal/middleware/auth.go), the password policy
(internal/service/admin.go), the equipment-registry cell/status logic
(internal/service/ru_service.go), the history repository query
(internal/repository/ru_repository.go) and the history HTTP handler
(internal/handlers/ru.go), together with theorems settling the frozen
claims about that code.

Conventions of the embedding:
- Go `time.Time` instants are modelled as `Nat` (seconds since epoch) where
  only ordering matters, and as the `GoTime` record where the code formats a
  calendar date.
- Fallible Go calls returning `(T, error)` are modelled as `Except String T`;
  a Go `nil, nil` pair (record not found, no error) is `Except.ok none`.
- The JWT library (github.com/golang-jwt/jwt/v5) is modelled symbolically:
  a compact-serialized token is a `Token` value carrying its declared
  algorithm, its claims, and a `Signature` value that records exactly which
  algorithm/key/payload produced it, so that signature verification is
  structural equality (standard symbolic-crypto treatment of an HMAC).
  Base64/JSON decoding of the wire string is an abstract
  `decode : String → Option Token` parameter; `none` is a malformed string.
-/

/-! ## Data model (internal/models) -/

/-- models.UserRole is a string type; its three constants follow. -/
abbrev UserRole := String

def RoleDispatcher : UserRole := "dispatcher"

def RoleEngineer : UserRole := "engineer"

def RoleAdmin : UserRole := "admin"

/-- models.User (timestamps as abstract instants). -/
structure User where
  id : String
  name : String
  email : String
  passwordHash : String
  role : UserRole
  createdAt : Nat
  updatedAt : Nat
deriving DecidableEq, Repr

/-! ## Credential & token service (pkg/utils/auth.go) -/

/-- The registered claims carried by a token: utils.Claims
(UserID/Email/Role plus jwt.RegisteredClaims ExpiresAt/IssuedAt). -/
structure Claims where
  userID : String
  email : String
  role : String
  issuedAt : Nat
  expiresAt : Nat
deriving DecidableEq, Repr

/-- The signing algorithms of the jwt library that this code can meet. -/
inductive SigningMethod where
  | HS256
  | HS384
  | HS512
  | RS256
  | ES256
  | none_
deriving DecidableEq, Repr

/-- The keyfunc in utils.ValidateToken accepts exactly the symmetric
HMAC family (`token.Method.(*jwt.SigningMethodHMAC)`). -/
def SigningMethod.isHMAC : SigningMethod → Bool
  | .HS256 => true
  | .HS384 => true
  | .HS512 => true
  | _ => false

/-- Symbolic MAC value: records which algorithm, key and payload were
signed.  Verification of an HMAC is equality of `Signature` values. -/
structure Signature where
  alg : SigningMethod
  key : String
  payload : Claims
deriving DecidableEq, Repr

/-- A decoded compact-serialized JWT: declared algorithm (header `alg`),
claims payload, and the trailing signature. -/
structure Token where
  alg : SigningMethod
  claims : Claims
  sig : Signature
deriving DecidableEq, Repr

/-- utils.GenerateToken: builds Claims{UserID, Email, Role,
ExpiresAt = now+ttl, IssuedAt = now} and signs them with HS256 under
`secret`.  (`SignedString` cannot fail in the symbolic model, so the
`(string, error)` pair collapses to the token value.) -/
def GenerateToken (user : User) (secret : String) (now ttl : Nat) : Token :=
  let claims : Claims :=
    { userID := user.id
      email := user.email
      role := user.role
      issuedAt := now
      expiresAt := now + ttl }
  { alg := .HS256, claims := claims, sig := ⟨.HS256, secret, claims⟩ }

/-- The parse/verify pipeline of jwt.ParseWithClaims applied to an already
decoded token, in the library's order: keyfunc (rejects any declared
algorithm outside the HMAC family), signature verification against the
secret, then registered-claims validation (`now < exp`, strict: the token
is invalid from the expiry instant on). -/
def validateParsedToken (tok : Token) (secret : String) (now : Nat) :
    Except String Claims :=
  if tok.alg.isHMAC = false then
    .error "unexpected signing method"
  else if tok.sig ≠ (⟨tok.alg, secret, tok.claims⟩ : Signature) then
    .error "signature is invalid"
  else if tok.claims.expiresAt ≤ now then
    .error "token is expired"
  else
    .ok tok.claims

/-- utils.ValidateToken: decode the compact serialization (the abstract
`decode`; a malformed string decodes to `none` and is an error), then run
the library's verification pipeline. -/
def ValidateToken (decode : String → Option Token)
    (tokenString secret : String) (now : Nat) : Except String Claims :=
  match decode tokenString with
  | none => .error "token is malformed"
  | some tok => validateParsedToken tok secret now

/-! ## Theorems: C1 and C2 -/

/-- C1: Token round-trip.  For any user identity, secret and ttl > 0,
validating (under the same secret, at any instant `t` before the expiry
instant `now + ttl`) a wire string that decodes to the token issued by
`GenerateToken` succeeds and returns claims whose subject id, email and
role are the issued identity's. -/
theorem token_roundtrip (user : User) (secret : String) (now ttl t : Nat)
    (decode : String → Option Token) (wire : String)
    (hdec : decode wire = some (GenerateToken user secret now ttl))
    (httl : 0 < ttl) (hfresh : t < now + ttl) :
    ValidateToken decode wire secret t =
      .ok { userID := user.id, email := user.email, role := user.role,
            issuedAt := now, expiresAt := now + ttl } := by
  unfold ValidateToken
  rw [hdec]
  unfold validateParsedToken GenerateToken
  simp [SigningMethod.isHMAC, Nat.not_le_of_lt hfresh]

/-- Closed instance of the round-trip theorem at a concrete identity,
secret and ttl. -/
theorem token_roundtrip_witness :
    ValidateToken
        (fun s => if s = "w" then
          some (GenerateToken ⟨"u1", "Alice", "a@x.com", "h", "engineer", 0, 0⟩ "k" 100 60) else none)
        "w" "k" 130 =
      .ok { userID := "u1", email := "a@x.com", role := "engineer",
            issuedAt := 100, expiresAt := 160 } :=
  token_roundtrip ⟨"u1", "Alice", "a@x.com", "h", "engineer", 0, 0⟩ "k" 100 60 130
    (fun s => if s = "w" then
      some (GenerateToken ⟨"u1", "Alice", "a@x.com", "h", "engineer", 0, 0⟩ "k" 100 60) else none)
    "w" (by decide) (by decide) (by decide)

/-- C2: ValidateToken succeeds, returning the embedded claims, iff the wire
string decodes to a well-formed token whose declared algorithm is in the
HMAC family, whose signature is the HMAC of its payload under the given
secret, and whose expiry instant has not yet been reached; in every other
case (malformed string, non-HMAC declared algorithm, signature mismatch,
or expiry) it fails with an error. -/
theorem validate_success_iff (decode : String → Option Token)
    (wire secret : String) (now : Nat) :
    ((∃ c, ValidateToken decode wire secret now = .ok c) ↔
      (∃ tok, decode wire = some tok ∧ tok.alg.isHMAC = true ∧
        tok.sig = (⟨tok.alg, secret, tok.claims⟩ : Signature) ∧
        now < tok.claims.expiresAt)) ∧
    (∀ tok c, decode wire = some tok →
      ValidateToken decode wire secret now = .ok c → c = tok.claims) ∧
    ((¬ ∃ c, ValidateToken decode wire secret now = .ok c) →
      ∃ e, ValidateToken decode wire secret now = .error e) := by
  refine ⟨?_, ?_, ?_⟩
  · constructor
    · rintro ⟨c, hc⟩
      unfold ValidateToken at hc
      cases hdec : decode wire with
      | none => rw [hdec] at hc; exact absurd hc (by simp)
      | some tok =>
        rw [hdec] at hc
        unfold validateParsedToken at hc
        by_cases h1 : tok.alg.isHMAC = false
        · simp [h1] at hc
        · by_cases h2 : tok.sig = (⟨tok.alg, secret, tok.claims⟩ : Signature)
          · by_cases h3 : tok.claims.expiresAt ≤ now
            · simp [h1, h2, h3] at hc
            · exact ⟨tok, rfl, by simpa using h1, h2, not_le.mp h3⟩
          · simp [h1, h2] at hc
    · rintro ⟨tok, hdec, halg, hsig, hexp⟩
      refine ⟨tok.claims, ?_⟩
      unfold ValidateToken
      rw [hdec]
      unfold validateParsedToken
      simp [halg, hsig, Nat.not_le_of_lt hexp]
  · intro tok c hdec hok
    unfold ValidateToken at hok
    rw [hdec] at hok
    unfold validateParsedToken at hok
    by_cases h1 : tok.alg.isHMAC = false
    · simp [h1] at hok
    · by_cases h2 : tok.sig = (⟨tok.alg, secret, tok.claims⟩ : Signature)
      · by_cases h3 : tok.claims.expiresAt ≤ now
        · simp [h1, h2, h3] at hok
        · simp [h1, h2, h3] at hok
          exact hok.symm
      · simp [h1, h2] at hok
  · intro hno
    cases hval : ValidateToken decode wire secret now with
    | ok c => exact absurd ⟨c, hval⟩ hno
    | error e => exact ⟨e, rfl⟩

/-! ## Access-control gate (internal/middleware/auth.go) -/

/-- HTTP methods the router can see (gin / net/http constants). -/
inductive HttpMethod where
  | GET
  | POST
  | PUT
  | DELETE
  | OPTIONS
  | PATCH
deriving DecidableEq, Repr

/-- The slice of an inbound request the middleware reads: method and the
Authorization header (`c.GetHeader` returns the empty string when the
header is absent). -/
structure Request where
  method : HttpMethod
  authHeader : String
deriving DecidableEq, Repr

/-- The request-scoped gin context keys the gate writes (`c.Set`) and the
role gate reads (`c.Get`).  Only strings are ever stored under these keys,
so the `interface` values are modelled as `Option String` directly; the
"invalid role type" type-assertion branch of RoleMiddleware is
unrepresentable in this model because no non-string value can be bound. -/
structure Ctx where
  userID : Option String := none
  userEmail : Option String := none
  userRole : Option String := none
deriving DecidableEq, Repr

/-- Outcome of one middleware: either `c.Next()` with the (possibly
updated) context, or `c.Abort()` after writing a status and error body. -/
inductive MWResult where
  | next (ctx : Ctx)
  | abort (status : Nat) (body : String)
deriving DecidableEq, Repr

/-- Go `strings.SplitN(s, " ", 2)`: split at the first space only;
a string with no space yields a one-element slice. -/
def splitN2Space (s : String) : List String :=
  let p := s.posOf ' '
  if p = s.endPos then [s] else [s.extract 0 p, s.extract (s.next p) s.endPos]

/-- middleware.AuthMiddleware: skip CORS pre-flight OPTIONS requests
outright; otherwise require an `Authorization: Bearer <token>` header,
validate the token, and on success bind user_id / user_email / user_role
into the request context. -/
def AuthMiddleware (decode : String → Option Token) (jwtSecret : String)
    (now : Nat) (req : Request) (ctx : Ctx) : MWResult :=
  if req.method = .OPTIONS then
    .next ctx
  else if req.authHeader = "" then
    .abort 401 "authorization header is required"
  else
    match splitN2Space req.authHeader with
    | [scheme, rest] =>
      if scheme ≠ "Bearer" then
        .abort 401 "invalid authorization header format"
      else
        match ValidateToken decode rest jwtSecret now with
        | .error _ => .abort 401 "invalid or expired token"
        | .ok claims =>
            .next { ctx with
                      userID := some claims.userID
                      userEmail := some claims.email
                      userRole := some claims.role }
    | _ => .abort 401 "invalid authorization header format"

/-- middleware.RoleMiddleware: read the bound role from the context
(absent → 401), then admit iff the role string equals some member of the
allowed-roles list (the `hasAccess` loop); otherwise 403. -/
def RoleMiddleware (allowedRoles : List String) (ctx : Ctx) : MWResult :=
  match ctx.userRole with
  | none => .abort 401 "user role not found"
  | some roleStr =>
    if allowedRoles.contains roleStr then
      .next ctx
    else
      .abort 403 "insufficient permissions"

/-- Final outcome of a gin middleware chain: the handler runs with the
final context, or some middleware aborted the request. -/
inductive ChainOutcome where
  | handler (ctx : Ctx)
  | rejected (status : Nat) (body : String)
deriving DecidableEq, Repr

/-- Run a middleware chain left to right, threading the context;
an abort short-circuits (gin's c.Abort). -/
def runChain : List (Ctx → MWResult) → Ctx → ChainOutcome
  | [], ctx => .handler ctx
  | mw :: rest, ctx =>
    match mw ctx with
    | .next ctx2 => runChain rest ctx2
    | .abort status body => .rejected status body

/-! ## Theorems: C3 and C4 -/

/-- C3 counterexample: an OPTIONS request through the gate of a role-gated
endpoint (AuthMiddleware then RoleMiddleware, as the /api/admin routes are
wired) does NOT pass straight through to the handler: AuthMiddleware skips
it without binding a role, and RoleMiddleware then rejects it with 401
"user role not found".  This refutes the claim that OPTIONS bypasses the
gate entirely "for every protected endpoint including those with a role
gate". -/
theorem options_role_gate_counterexample :
    runChain
        [AuthMiddleware (fun _ => none) "secret" 0 ⟨.OPTIONS, ""⟩,
         RoleMiddleware ["admin"]]
        {} =
      .rejected 401 "user role not found" := rfl

/-- C3 (amended): an OPTIONS request bypasses the authentication stage
unconditionally (AuthMiddleware passes it through with the context
untouched, whatever the header holds), so endpoints gated only by
AuthMiddleware hand it straight to the handler; but on endpoints that add
a role gate, RoleMiddleware finds no bound role and rejects the request
with 401 "user role not found". -/
theorem options_bypasses_auth_stage_only (decode : String → Option Token)
    (jwtSecret : String) (now : Nat) (req : Request) (ctx : Ctx)
    (hm : req.method = .OPTIONS) :
    AuthMiddleware decode jwtSecret now req ctx = .next ctx ∧
    runChain [AuthMiddleware decode jwtSecret now req] ctx = .handler ctx ∧
    (∀ allowedRoles,
      runChain
          [AuthMiddleware decode jwtSecret now req,
           RoleMiddleware allowedRoles]
          {} =
        .rejected 401 "user role not found") := by
  have hauth : ∀ c : Ctx, AuthMiddleware decode jwtSecret now req c = .next c := by
    intro c
    unfold AuthMiddleware
    simp [hm]
  refine ⟨hauth ctx, ?_, ?_⟩
  · simp [runChain, hauth ctx]
  · intro allowedRoles
    simp [runChain, hauth ({} : Ctx), RoleMiddleware]

/-- Closed instance of the amended C3 theorem at a concrete OPTIONS
request and the admin-only role list. -/
theorem options_bypasses_auth_stage_only_witness :
    AuthMiddleware (fun _ => none) "secret" 7 ⟨.OPTIONS, "Bearer x"⟩ {} = .next {} ∧
    runChain [AuthMiddleware (fun _ => none) "secret" 7 ⟨.OPTIONS, "Bearer x"⟩] {} = .handler {} ∧
    (∀ allowedRoles,
      runChain
          [AuthMiddleware (fun _ => none) "secret" 7 ⟨.OPTIONS, "Bearer x"⟩,
           RoleMiddleware allowedRoles]
          {} =
        .rejected 401 "user role not found") :=
  options_bypasses_auth_stage_only (fun _ => none) "secret" 7 ⟨.OPTIONS, "Bearer x"⟩ {} rfl

/-- C4: role-gate membership is exact.  For a request whose context binds
role string R and an endpoint accepting the role list L, RoleMiddleware
admits the request iff R is string-equal to some member of L, and rejects
with 403 "insufficient permissions" otherwise; no transitivity, hierarchy
or prefix matching is involved. -/
theorem role_gate_membership_exact (allowedRoles : List String) (ctx : Ctx)
    (R : String) (hrole : ctx.userRole = some R) :
    (RoleMiddleware allowedRoles ctx = .next ctx ↔ R ∈ allowedRoles) ∧
    (R ∉ allowedRoles →
      RoleMiddleware allowedRoles ctx = .abort 403 "insufficient permissions") := by
  unfold RoleMiddleware
  rw [hrole]
  constructor
  · by_cases hmem : R ∈ allowedRoles
    · simp [hmem]
    · simp [hmem]
  · intro hmem
    simp [hmem]

/-- Closed instance of C4: a context bound to a valid engineer role is
rejected by the admin-only role gate. -/
theorem role_gate_membership_exact_witness :
    RoleMiddleware ["admin"] { userRole := some "engineer" } =
      .abort 403 "insufficient permissions" :=
  (role_gate_membership_exact ["admin"] { userRole := some "engineer" }
    "engineer" rfl).2 (by decide)

/-! ## Password policy gate (internal/service/admin.go, pkg/utils) -/

/-- The character class of the policy regex
`[!@#$%^&*()_+\-=\[\]\x7b\x7d;':"\\|,.<>\/?]`, spelled out as the set of
characters it matches. -/
def specialChars : String := "!@#$%^&*()_+-=[]\x7b\x7d;\x27:\x22\x5c|,.<>/?"

/-- Membership of one character in the special-character class; the regex
`MatchString` on a password is then "some character matches". -/
def isSpecialChar (c : Char) : Bool := specialChars.data.contains c

/-- Go `len` of a string: the byte length of its UTF-8 encoding. -/
def goStrLen (s : String) : Nat := (s.data.map Char.utf8Size).sum

/-- service.validatePassword (admin.go): the policy gate used by account
creation and password change. -/
def validatePassword (password : String) : Bool × String :=
  if goStrLen password < 6 then
    (false, "Пароль должен содержать минимум 6 символов")
  else if password.data.any isSpecialChar = false then
    (false, "Пароль должен содержать хотя бы один специальный символ (!@#$%^&* и т.д.)")
  else
    (true, "")

/-- utils.ValidatePassword (pkg/utils): a textually identical copy of the
admin-service policy gate. -/
def ValidatePassword (password : String) : Bool × String :=
  if goStrLen password < 6 then
    (false, "Пароль должен содержать минимум 6 символов")
  else if password.data.any isSpecialChar = false then
    (false, "Пароль должен содержать хотя бы один специальный символ (!@#$%^&* и т.д.)")
  else
    (true, "")

/-! ## Theorem: C5 -/

/-- C5: the password policy accepts a password iff its (byte) length is at
least 6 and it contains at least one character of the special-character
class; every rejection carries a non-empty human-readable reason; the two
copies of the gate agree; "abc123" is rejected and "abc123!" accepted. -/
theorem password_policy_exact :
    (∀ p : String,
      ((validatePassword p).1 = true ↔
        6 ≤ goStrLen p ∧ p.data.any isSpecialChar = true) ∧
      ((validatePassword p).1 = false → (validatePassword p).2 ≠ "") ∧
      validatePassword p = ValidatePassword p) ∧
    (validatePassword "abc123").1 = false ∧
    validatePassword "abc123!" = (true, "") := by
  refine ⟨?_, by decide, by decide⟩
  intro p
  unfold validatePassword ValidatePassword
  by_cases h1 : goStrLen p < 6
  · simp [h1]
  · by_cases h2 : p.data.any isSpecialChar = false
    · simp [h1, h2]
    · simp [h1, h2]
      omega

/-! ## Login (internal/service/auth_service.go AuthService.Login) -/

/-- models.LoginRequest. -/
structure LoginRequest where
  email : String
  password : String
deriving DecidableEq, Repr

/-- models.UserResponse: the public projection of an account (no hash). -/
structure UserResponse where
  id : String
  name : String
  email : String
  role : String
  createdAt : Nat
deriving DecidableEq, Repr

/-- models.AuthResponse: public projection plus the issued token. -/
structure AuthResponse where
  user : UserResponse
  token : Token
deriving DecidableEq, Repr

/-- AuthService.Login.  `findByEmail` is UserRepository.FindByEmail
(`.ok none` = no row, no error); `checkPassword` is utils.CheckPassword
(bcrypt comparison, abstract here).  Token generation is total in the
symbolic model, so its error branch does not arise. -/
def Login (findByEmail : String → Except String (Option User))
    (checkPassword : String → String → Bool)
    (jwtSecret : String) (now ttl : Nat) (req : LoginRequest) :
    Except String AuthResponse :=
  match findByEmail req.email with
  | .error e => .error ("failed to find user: " ++ e)
  | .ok none => .error "invalid email or password"
  | .ok (some user) =>
    if checkPassword req.password user.passwordHash = false then
      .error "invalid email or password"
    else
      .ok { user := { id := user.id, name := user.name, email := user.email,
                      role := user.role, createdAt := user.createdAt },
            token := GenerateToken user jwtSecret now ttl }

/-! ## Theorem: C9 -/

/-- C9: login non-enumeration.  A run against a store with no account for
the email and a run against a store holding an account whose password does
not verify both fail with the identical generic error
"invalid email or password", so the outcome does not reveal whether the
email is registered. -/
theorem login_non_enumeration
    (findMissing findPresent : String → Except String (Option User))
    (checkPassword : String → String → Bool) (jwtSecret : String)
    (now ttl : Nat) (req : LoginRequest) (u : User)
    (hmiss : findMissing req.email = .ok none)
    (hpres : findPresent req.email = .ok (some u))
    (hpw : checkPassword req.password u.passwordHash = false) :
    Login findMissing checkPassword jwtSecret now ttl req =
        .error "invalid email or password" ∧
    Login findPresent checkPassword jwtSecret now ttl req =
        .error "invalid email or password" := by
  unfold Login
  rw [hmiss, hpres]
  simp [hpw]

/-- Closed instance of C9 at a concrete request, a store without the
account and a store with it under a non-verifying password. -/
theorem login_non_enumeration_witness :
    Login (fun _ => .ok none) (fun _ _ => false) "k" 0 3600 ⟨"b@x.com", "guess"⟩ =
        .error "invalid email or password" ∧
    Login (fun _ => .ok (some ⟨"u1", "Bob", "b@x.com", "hash", "engineer", 0, 0⟩))
        (fun _ _ => false) "k" 0 3600 ⟨"b@x.com", "guess"⟩ =
        .error "invalid email or password" :=
  login_non_enumeration (fun _ => .ok none)
    (fun _ => .ok (some ⟨"u1", "Bob", "b@x.com", "hash", "engineer", 0, 0⟩))
    (fun _ _ => false) "k" 0 3600 ⟨"b@x.com", "guess"⟩
    ⟨"u1", "Bob", "b@x.com", "hash", "engineer", 0, 0⟩ rfl rfl rfl

/-! ## Equipment registry: cells and status transitions
(internal/models, internal/service/ru_service.go) -/

/-- A calendar instant as time.Now() supplies it where the code formats a
date; identity of instants is by all six fields. -/
structure GoTime where
  day : Nat
  month : Nat
  year : Nat
  hour : Nat
  minute : Nat
  second : Nat
deriving DecidableEq, Repr

/-- Two-digit zero padding: the "02"/"01"/"15"/"04"/"05" layout verbs. -/
def pad2 (n : Nat) : String := if n < 10 then "0" ++ toString n else toString n

/-- Four-digit zero padding: the "2006" year layout verb. -/
def pad4 (n : Nat) : String :=
  if n < 10 then "000" ++ toString n
  else if n < 100 then "00" ++ toString n
  else if n < 1000 then "0" ++ toString n
  else toString n

/-- Go layout "02.01.2006 15:04:05", i.e. DD.MM.YYYY HH:MM:SS. -/
def formatDDMMYYYYHHMMSS (t : GoTime) : String :=
  pad2 t.day ++ "." ++ pad2 t.month ++ "." ++ pad4 t.year ++ " " ++
    pad2 t.hour ++ ":" ++ pad2 t.minute ++ ":" ++ pad2 t.second

/-- models.CellType is a string type (INPUT, SR, SV, TRANSFORMER, RESERVE,
BUS, LOW_VOLTAGE, OUTPUT, PROTECTION, MEASUREMENT); the JSON binding does
not restrict it, so it is a plain string here. -/
abbrev CellType := String

/-- models.CellStatus is a string type (ON, OFF, RESERVE, ERROR,
MAINTENANCE); the JSON binding does not restrict it either. -/
abbrev CellStatus := String

/-- models.Cell.  Pointer-to-primitive optional fields become `Option`;
the float telemetry fields are carried opaquely (the status logic never
reads or writes them). -/
structure Cell where
  id : Int
  number : String
  name : String
  type : CellType
  status : CellStatus
  voltage : String
  voltageLevel : String
  power : Option String
  description : String
  lastOperation : Option String
  isGrounded : Bool
  lastGroundedOperation : Option String
  transformerNumber : Option String
  busSection : Option Int
  current : Option Float
  temperature : Option Float
  load : Option Float
  ruID : String
  createdAt : GoTime
  updatedAt : GoTime

/-- models.UpdateCellStatusRequest: a status and an optional grounding
flag (`*bool`, absent when the JSON key is omitted). -/
structure UpdateCellStatusRequest where
  status : CellStatus
  isGrounded : Option Bool
deriving DecidableEq, Repr

/-- The in-memory mutation RuService.UpdateCellStatus performs between
load and save: the status is overwritten unconditionally; exactly when the
request carries a grounding flag, isGrounded and the formatted
lastGroundedOperation stamp are set; the formatted lastOperation stamp and
the row modification time are always set.  The source calls time.Now()
for each stamp within the same handler invocation; they are modelled as
one instant `now`. -/
def applyCellStatusUpdate (cell : Cell) (req : UpdateCellStatusRequest)
    (now : GoTime) : Cell :=
  let cell1 := { cell with status := req.status }
  let cell2 :=
    match req.isGrounded with
    | some g =>
        { cell1 with isGrounded := g,
                     lastGroundedOperation := some (formatDDMMYYYYHHMMSS now) }
    | none => cell1
  { cell2 with lastOperation := some (formatDDMMYYYYHHMMSS now),
               updatedAt := now }

/-- RuService.UpdateCellStatus: resolve the cell by (cellID, ruID) through
the repository (`getCellByID`, wrapping a miss as "cell not found"), apply
the mutation, persist it (`updateCell`, wrapping a failure), and return
the updated cell. -/
def UpdateCellStatus
    (getCellByID : Int → String → Except String Cell)
    (updateCell : Cell → Except String Unit)
    (now : GoTime) (ruID : String) (cellID : Int)
    (req : UpdateCellStatusRequest) : Except String Cell :=
  match getCellByID cellID ruID with
  | .error e => .error ("cell not found: " ++ e)
  | .ok cell =>
    let cell2 := applyCellStatusUpdate cell req now
    match updateCell cell2 with
    | .error e => .error ("failed to update cell: " ++ e)
    | .ok _ => .ok cell2

/-! ## Theorem: C6 -/

/-- C6: cell status transition.  For a resolvable (equipment-unit id,
cell id) pair whose persistence succeeds, the operation returns the cell
with its status replaced unconditionally by the requested value; iff a
grounding flag was supplied, isGrounded is set to it and
lastGroundedOperation stamped with the current DD.MM.YYYY HH:MM:SS time
(otherwise both are untouched); lastOperation is always stamped with that
time and the row modification time is always refreshed. -/
theorem cell_status_update_exact
    (getCellByID : Int → String → Except String Cell)
    (updateCell : Cell → Except String Unit)
    (now : GoTime) (ruID : String) (cellID : Int)
    (req : UpdateCellStatusRequest) (cell : Cell)
    (hget : getCellByID cellID ruID = .ok cell)
    (hsave : updateCell (applyCellStatusUpdate cell req now) = .ok ()) :
    UpdateCellStatus getCellByID updateCell now ruID cellID req =
        .ok (applyCellStatusUpdate cell req now) ∧
    (applyCellStatusUpdate cell req now).status = req.status ∧
    (∀ g, req.isGrounded = some g →
      (applyCellStatusUpdate cell req now).isGrounded = g ∧
      (applyCellStatusUpdate cell req now).lastGroundedOperation =
        some (formatDDMMYYYYHHMMSS now)) ∧
    (req.isGrounded = none →
      (applyCellStatusUpdate cell req now).isGrounded = cell.isGrounded ∧
      (applyCellStatusUpdate cell req now).lastGroundedOperation =
        cell.lastGroundedOperation) ∧
    (applyCellStatusUpdate cell req now).lastOperation =
      some (formatDDMMYYYYHHMMSS now) ∧
    (applyCellStatusUpdate cell req now).updatedAt = now := by
  refine ⟨?_, ?_, ?_, ?_, ?_, ?_⟩
  · unfold UpdateCellStatus
    rw [hget]
    simp [hsave]
  all_goals
    unfold applyCellStatusUpdate
    cases hg : req.isGrounded <;> simp_all

/-- Closed instance of C6: a concrete cell, a request switching it OFF and
grounding it, against a repository that resolves it and persists. -/
theorem cell_status_update_exact_witness :
    UpdateCellStatus
        (fun _ _ => .ok
          ⟨1, "1", "Cell 1", "INPUT", "ON", "10 kV", "high", none, "d",
           none, false, none, none, none, none, none, none, "tp-1i",
           ⟨1, 1, 2024, 0, 0, 0⟩, ⟨1, 1, 2024, 0, 0, 0⟩⟩)
        (fun _ => .ok ())
        ⟨11, 10, 2026, 12, 30, 5⟩ "tp-1i" 1 ⟨"OFF", some true⟩ =
      .ok (applyCellStatusUpdate
        ⟨1, "1", "Cell 1", "INPUT", "ON", "10 kV", "high", none, "d",
         none, false, none, none, none, none, none, none, "tp-1i",
         ⟨1, 1, 2024, 0, 0, 0⟩, ⟨1, 1, 2024, 0, 0, 0⟩⟩
        ⟨"OFF", some true⟩ ⟨11, 10, 2026, 12, 30, 5⟩) :=
  (cell_status_update_exact
    (fun _ _ => .ok
      ⟨1, "1", "Cell 1", "INPUT", "ON", "10 kV", "high", none, "d",
       none, false, none, none, none, none, none, none, "tp-1i",
       ⟨1, 1, 2024, 0, 0, 0⟩, ⟨1, 1, 2024, 0, 0, 0⟩⟩)
    (fun _ => .ok ())
    ⟨11, 10, 2026, 12, 30, 5⟩ "tp-1i" 1 ⟨"OFF", some true⟩
    ⟨1, "1", "Cell 1", "INPUT", "ON", "10 kV", "high", none, "d",
     none, false, none, none, none, none, none, none, "tp-1i",
     ⟨1, 1, 2024, 0, 0, 0⟩, ⟨1, 1, 2024, 0, 0, 0⟩⟩
    rfl rfl).1

/-! ## Operations history ledger
(internal/models, internal/repository/ru_repository.go) -/

/-- models.OperationRecord: the append-only ledger entry.  `createdAt`
(the server-side creation instant the query orders by) is an abstract
instant; `timestamp` is the client-supplied formatted string. -/
structure OperationRecord where
  id : String
  cellNumber : String
  cellName : String
  action : String
  operator : String
  timestamp : String
  reason : Option String
  documentType : Option String
  orderNumber : Option String
  workOrderNumber : Option String
  startDate : Option String
  endDate : Option String
  responsiblePerson : Option String
  comment : Option String
  severity : Option String
  ruID : String
  createdAt : Nat
  updatedAt : Nat
deriving DecidableEq, Repr

/-- The ordering `ORDER BY created_at DESC` asks for: a record sorts
before another when its creation instant is at least as late. -/
def newestFirst (a b : OperationRecord) : Prop := b.createdAt ≤ a.createdAt

instance : DecidableRel newestFirst := fun a b => Nat.decLe b.createdAt a.createdAt

instance : IsTotal OperationRecord newestFirst :=
  ⟨fun a b => Nat.le_total b.createdAt a.createdAt⟩

instance : IsTrans OperationRecord newestFirst :=
  ⟨fun _ _ _ hab hbc => Nat.le_trans hbc hab⟩

/-- RuRepository.GetHistoryByRuID over the operation_records table `db`:
filter rows with the unit's ru_id, order newest-first by created_at, and
apply LIMIT only when the bound is positive.  (The SQL engine may order
ties arbitrarily; insertion sort realizes one admissible order.) -/
def GetHistoryByRuID (db : List OperationRecord) (ruID : String)
    (limit : Int) : List OperationRecord :=
  let sorted := List.insertionSort newestFirst
    (db.filter (fun r => r.ruID == ruID))
  if limit > 0 then sorted.take limit.toNat else sorted

/-! ## Theorem: C7 -/

/-- C7: history query bound.  The query returns only the unit's records,
ordered newest-first by creation time; a positive bound N truncates the
result to at most N records; a bound ≤ 0 returns all of the unit's
records (the result is a permutation of the unit's rows). -/
theorem history_query_bound (db : List OperationRecord) (ruID : String)
    (limit : Int) :
    List.Sorted newestFirst (GetHistoryByRuID db ruID limit) ∧
    (∀ rec ∈ GetHistoryByRuID db ruID limit, rec.ruID = ruID) ∧
    (0 < limit → (GetHistoryByRuID db ruID limit).length ≤ limit.toNat) ∧
    (limit ≤ 0 →
      (GetHistoryByRuID db ruID limit).Perm
        (db.filter (fun r => r.ruID == ruID))) := by
  have hsorted := List.sorted_insertionSort newestFirst
    (db.filter (fun r => r.ruID == ruID))
  have hperm := List.perm_insertionSort newestFirst
    (db.filter (fun r => r.ruID == ruID))
  refine ⟨?_, ?_, ?_, ?_⟩
  · unfold GetHistoryByRuID
    by_cases hl : limit > 0
    · simp only [hl, if_pos]
      exact List.Pairwise.sublist (List.take_sublist _ _) hsorted
    · simp only [hl, if_neg, if_false]
      exact hsorted
  · intro rec hrec
    unfold GetHistoryByRuID at hrec
    have hmem : rec ∈ List.insertionSort newestFirst
        (db.filter (fun r => r.ruID == ruID)) := by
      by_cases hl : limit > 0
      · simp only [hl, if_pos] at hrec
        exact (List.take_sublist _ _).mem hrec
      · simp only [hl, if_neg, if_false] at hrec
        exact hrec
    have hfil : rec ∈ db.filter (fun r => r.ruID == ruID) :=
      hperm.mem_iff.mp hmem
    have := List.of_mem_filter hfil
    simpa using this
  · intro hl
    unfold GetHistoryByRuID
    rw [if_pos hl]
    exact List.length_take_le _ _
  · intro hl
    have hnl : ¬ (limit > 0) := by omega
    unfold GetHistoryByRuID
    rw [if_neg hnl]
    exact hperm

/-- Closed instance of C7 at a two-record table and bound 1: the result
keeps the newer record only. -/
theorem history_query_bound_witness :
    (0 < (1 : Int) →
      (GetHistoryByRuID
        [⟨"r1", "1", "c", "on", "op", "t", none, none, none, none, none,
          none, none, none, none, "tp-1i", 5, 5⟩,
         ⟨"r2", "2", "c", "off", "op", "t", none, none, none, none, none,
          none, none, none, none, "tp-1i", 9, 9⟩]
        "tp-1i" 1).length ≤ (1 : Int).toNat) ∧
    (GetHistoryByRuID
      [⟨"r1", "1", "c", "on", "op", "t", none, none, none, none, none,
        none, none, none, none, "tp-1i", 5, 5⟩,
       ⟨"r2", "2", "c", "off", "op", "t", none, none, none, none, none,
        none, none, none, none, "tp-1i", 9, 9⟩]
      "tp-1i" 1).length ≤ (1 : Int).toNat :=
  ⟨(history_query_bound
      [⟨"r1", "1", "c", "on", "op", "t", none, none, none, none, none,
        none, none, none, none, "tp-1i", 5, 5⟩,
       ⟨"r2", "2", "c", "off", "op", "t", none, none, none, none, none,
        none, none, none, none, "tp-1i", 9, 9⟩]
      "tp-1i" 1).2.2.1,
   (history_query_bound
      [⟨"r1", "1", "c", "on", "op", "t", none, none, none, none, none,
        none, none, none, none, "tp-1i", 5, 5⟩,
       ⟨"r2", "2", "c", "off", "op", "t", none, none, none, none, none,
        none, none, none, none, "tp-1i", 9, 9⟩]
      "tp-1i" 1).2.2.1 (by decide)⟩

/-! ## History HTTP handler (internal/handlers/ru.go RuHandler.GetHistory) -/

/-- Go strconv.Atoi: an optional single sign followed by at least one
ASCII digit making up the entire string; a value outside the 64-bit int
range is a range error.  Any error is `none`. -/
def goAtoi (s : String) : Option Int :=
  match s.data with
  | [] => none
  | c :: cs =>
    let signAndDigits :=
      if c = '-' then (true, cs)
      else if c = '+' then (false, cs)
      else (false, c :: cs)
    let digits := signAndDigits.2
    if digits.isEmpty then none
    else if digits.all Char.isDigit then
      let n : Nat := digits.foldl (fun acc d => acc * 10 + (d.toNat - 48)) 0
      let v : Int := if signAndDigits.1 then -(n : Int) else (n : Int)
      if v < -(2 ^ 63) ∨ 2 ^ 63 - 1 < v then none else some v
    else none

/-- The limit selection of RuHandler.GetHistory: start from the default
50; only when the `limit` query parameter is non-empty (c.Query yields ""
when absent), parses, and is strictly positive does it replace the
default. -/
def GetHistoryLimit (limitStr : String) : Int :=
  if limitStr ≠ "" then
    match goAtoi limitStr with
    | some l => if l > 0 then l else 50
    | none => 50
  else 50

/-- RuHandler.GetHistory after limit selection: delegate to the
repository query (the service layer forwards both arguments unchanged). -/
def GetHistoryEndpoint (db : List OperationRecord) (ruID : String)
    (limitStr : String) : List OperationRecord :=
  GetHistoryByRuID db ruID (GetHistoryLimit limitStr)

/-! ## Theorem: C10 -/

/-- C10: the history endpoint never requests an unbounded query.  For
every limit query string the effective bound is strictly positive: a
missing (empty), non-numeric, or non-positive value yields the default
50, and only a parseable value > 0 replaces it; consequently the
endpoint's query always takes the truncating (`LIMIT`) branch of
GetHistoryByRuID, so the "bound ≤ 0 returns all" branch is unreachable
through this endpoint. -/
theorem history_endpoint_bound_positive (limitStr : String)
    (db : List OperationRecord) (ruID : String) :
    0 < GetHistoryLimit limitStr ∧
    (∀ l, goAtoi limitStr = some l → 0 < l → GetHistoryLimit limitStr = l) ∧
    ((limitStr = "" ∨ goAtoi limitStr = none ∨
        (∃ l, goAtoi limitStr = some l ∧ l ≤ 0)) →
      GetHistoryLimit limitStr = 50) ∧
    GetHistoryEndpoint db ruID limitStr =
      (List.insertionSort newestFirst
        (db.filter (fun r => r.ruID == ruID))).take
        (GetHistoryLimit limitStr).toNat := by
  have hpos : 0 < GetHistoryLimit limitStr := by
    unfold GetHistoryLimit
    by_cases he : limitStr = ""
    · simp [he]
    · cases ha : goAtoi limitStr with
      | none => simp [he, ha]
      | some l =>
        by_cases hl : l > 0
        · simp [he, ha, hl]
        · simp [he, ha, hl]
  refine ⟨hpos, ?_, ?_, ?_⟩
  · intro l ha hl
    unfold GetHistoryLimit
    by_cases he : limitStr = ""
    · have h0 : goAtoi "" = none := by decide
      rw [he, h0] at ha
      exact Option.noConfusion ha
    · simp [he, ha, hl]
  · rintro (he | ha | ⟨l, ha, hl⟩)
    · simp [GetHistoryLimit, he]
    · unfold GetHistoryLimit
      by_cases he : limitStr = ""
      · simp [he]
      · simp [he, ha]
    · unfold GetHistoryLimit
      by_cases he : limitStr = ""
      · simp [he]
      · have hnl : ¬ (l > 0) := by omega
        simp [he, ha, hnl]
  · unfold GetHistoryEndpoint GetHistoryByRuID
    rw [if_pos hpos]

/-- Closed instance of C10: the empty, a non-numeric, a negative and a
valid limit string all yield a positive bound. -/
theorem history_endpoint_bound_positive_witness :
    0 < GetHistoryLimit "" ∧ 0 < GetHistoryLimit "abc" ∧
    0 < GetHistoryLimit "-3" ∧ 0 < GetHistoryLimit "0" ∧
    0 < GetHistoryLimit "7" :=
  ⟨(history_endpoint_bound_positive "" [] "tp-1i").1,
   (history_endpoint_bound_positive "abc" [] "tp-1i").1,
   (history_endpoint_bound_positive "-3" [] "tp-1i").1,
   (history_endpoint_bound_positive "0" [] "tp-1i").1,
   (history_endpoint_bound_positive "7" [] "tp-1i").1⟩

/-! ## Bulk facility reassignment
(internal/models RUInfo, internal/service/ru_service.go UpdateRUsSubstation) -/

/-- models.RUType is a string type (KRU, TP). -/
abbrev RUType := String

/-- models.RUInfo: the equipment-unit record.  The nameplate fields are
opaque strings/numbers to the core logic. -/
structure RUInfo where
  id : String
  name : String
  voltage : String
  sections : Int
  cellsCount : Int
  transformers : Int
  transformerPower : String
  location : String
  installationDate : String
  manufacturer : String
  lastMaintenance : String
  nextMaintenance : String
  status : String
  schemeType : String
  totalLoadHigh : String
  totalLoadLow : String
  totalPowerHigh : String
  totalPowerLow : String
  maxCapacityHigh : String
  maxCapacityLow : String
  operationalHours : Int
  lastInspection : String
  type : RUType
  hasHighSide : Bool
  hasLowSide : Bool
  busSections : Int
  cellsPerSection : Int
  substationID : String
  createdAt : GoTime
  updatedAt : GoTime
deriving DecidableEq, Repr

/-- The per-unit mutation of the loop body: repoint the owning substation
and refresh the modification time. -/
def reassignSubstation (ru : RUInfo) (substationID : String)
    (now : GoTime) : RUInfo :=
  { ru with substationID := substationID, updatedAt := now }

/-- The loop of RuService.UpdateRUsSubstation with the `updatedRUs`
accumulator holding the units persisted so far: a unit that fails to load
is skipped with `continue`; a persistence failure returns the wrapped
error immediately (aborting the whole batch, no list); a persisted unit
is appended and the loop continues. -/
def updateRUsSubstationLoop (getRuByID : String → Except String RUInfo)
    (updateRu : RUInfo → Except String Unit) (now : GoTime)
    (substationID : String) :
    List String → List RUInfo → Except String (List RUInfo)
  | [], acc => .ok acc
  | ruID :: rest, acc =>
    match getRuByID ruID with
    | .error _ =>
      updateRUsSubstationLoop getRuByID updateRu now substationID rest acc
    | .ok ru =>
      let ru2 := reassignSubstation ru substationID now
      match updateRu ru2 with
      | .error e => .error ("failed to update RU " ++ ruID ++ ": " ++ e)
      | .ok _ =>
        updateRUsSubstationLoop getRuByID updateRu now substationID rest
          (acc ++ [ru2])

/-- RuService.UpdateRUsSubstation: run the loop over the requested ids
starting from the empty result list. -/
def UpdateRUsSubstation (getRuByID : String → Except String RUInfo)
    (updateRu : RUInfo → Except String Unit) (now : GoTime)
    (ruIDs : List String) (substationID : String) :
    Except String (List RUInfo) :=
  updateRUsSubstationLoop getRuByID updateRu now substationID ruIDs []

/-! ## Theorem: C8 -/

/-- C8: bulk reassignment partial-failure policy, at any point of the
batch (list head `ruID`, remaining ids `rest`, results so far `acc`): an
id whose unit cannot be loaded is silently skipped and the batch
continues unchanged; a persistence failure when saving a loaded unit
aborts the entire batch with the wrapped error — no further ids are
processed and no result list is returned; and the operation is the loop
started from the empty accumulator. -/
theorem bulk_reassignment_partial_failure
    (getRuByID : String → Except String RUInfo)
    (updateRu : RUInfo → Except String Unit) (now : GoTime)
    (substationID ruID : String) (rest : List String) (acc : List RUInfo) :
    (∀ e, getRuByID ruID = .error e →
      updateRUsSubstationLoop getRuByID updateRu now substationID
          (ruID :: rest) acc =
        updateRUsSubstationLoop getRuByID updateRu now substationID
          rest acc) ∧
    (∀ ru e, getRuByID ruID = .ok ru →
      updateRu (reassignSubstation ru substationID now) = .error e →
      updateRUsSubstationLoop getRuByID updateRu now substationID
          (ruID :: rest) acc =
        .error ("failed to update RU " ++ ruID ++ ": " ++ e)) ∧
    UpdateRUsSubstation getRuByID updateRu now (ruID :: rest)
        substationID =
      updateRUsSubstationLoop getRuByID updateRu now substationID
        (ruID :: rest) [] := by
  refine ⟨?_, ?_, rfl⟩
  · intro e he
    conv_lhs => unfold updateRUsSubstationLoop
    rw [he]
  · intro ru e hget hsave
    conv_lhs => unfold updateRUsSubstationLoop
    rw [hget]
    simp [hsave]

/-- Closed instance of C8: over a store that resolves "tp-1i" but whose
save fails, a batch starting with "tp-1i" aborts with the wrapped error
even though more ids follow. -/
theorem bulk_reassignment_partial_failure_witness :
    UpdateRUsSubstation
        (fun i => if i = "tp-1i" then .ok
          ⟨"tp-1i", "ТП-1И", "10/0,4 кВ", 2, 12, 2, "2 × 100 кВА",
           "Промзона Хоргос", "2021-08-10", "Энерготехника", "2024-02-15",
           "2024-08-15", "Работает в штатном режиме", "Две секции",
           "430 А", "635 А", "430 кВА", "250 кВт", "630 А", "800 А",
           21500, "2024-02-20", "TP", true, true, 2, 9, "ps-164",
           ⟨1, 1, 2024, 0, 0, 0⟩, ⟨1, 1, 2024, 0, 0, 0⟩⟩
          else .error "failed to get RU by ID: record not found")
        (fun _ => .error "connection lost")
        ⟨11, 10, 2026, 12, 0, 0⟩ ["tp-1i", "tp-2i"] "ps-64" =
      .error "failed to update RU tp-1i: connection lost" := by
  have h := bulk_reassignment_partial_failure
    (fun i => if i = "tp-1i" then .ok
      ⟨"tp-1i", "ТП-1И", "10/0,4 кВ", 2, 12, 2, "2 × 100 кВА",
       "Промзона Хоргос", "2021-08-10", "Энерготехника", "2024-02-15",
       "2024-08-15", "Работает в штатном режиме", "Две секции",
       "430 А", "635 А", "430 кВА", "250 кВт", "630 А", "800 А",
       21500, "2024-02-20", "TP", true, true, 2, 9, "ps-164",
       ⟨1, 1, 2024, 0, 0, 0⟩, ⟨1, 1, 2024, 0, 0, 0⟩⟩
      else .error "failed to get RU by ID: record not found")
    (fun _ => .error "connection lost")
    ⟨11, 10, 2026, 12, 0, 0⟩ "ps-64" "tp-1i" ["tp-2i"] []
  rw [h.2.2]
  exact h.2.1
    ⟨"tp-1i", "ТП-1И", "10/0,4 кВ", 2, 12, 2, "2 × 100 кВА",
     "Промзона Хоргос", "2021-08-10", "Энерготехника", "2024-02-15",
     "2024-08-15", "Работает в штатном режиме", "Две секции",
     "430 А", "635 А", "430 кВА", "250 кВт", "630 А", "800 А",
     21500, "2024-02-20", "TP", true, true, 2, 9, "ps-164",
     ⟨1, 1, 2024, 0, 0, 0⟩, ⟨1, 1, 2024, 0, 0, 0⟩⟩
    "connection lost" rfl rfl

/-- Closed instance of C2: a decodable HS256 token correctly signed under
the secret and not yet expired validates successfully. -/
theorem validate_success_iff_witness :
    ∃ c, ValidateToken
        (fun _ => some ⟨.HS256, ⟨"u", "e", "r", 0, 10⟩,
          ⟨.HS256, "k", ⟨"u", "e", "r", 0, 10⟩⟩⟩)
        "w" "k" 5 = .ok c :=
  ((validate_success_iff
      (fun _ => some ⟨.HS256, ⟨"u", "e", "r", 0, 10⟩,
        ⟨.HS256, "k", ⟨"u", "e", "r", 0, 10⟩⟩⟩)
      "w" "k" 5).1).mpr
    ⟨⟨.HS256, ⟨"u", "e", "r", 0, 10⟩, ⟨.HS256, "k", ⟨"u", "e", "r", 0, 10⟩⟩⟩,
     rfl, rfl, rfl, by decide⟩

/-- Closed instance of C5: the two concrete policy checks of the claim. -/
theorem password_policy_exact_witness :
    (validatePassword "abc123").1 = false ∧
    validatePassword "abc123!" = (true, "") :=
  ⟨password_policy_exact.2.1, password_policy_exact.2.2⟩
